import Mathlib

/-!
Shallow embedding of the FF_OSD video-sync core (src/src/main.c).

The embedding covers the interrupt-driven sync state machine (IRQ_csync,
IRQ_vsync), the slave-timer reload computation (slave_arr_update), the
polarity configuration (set_polarity), and the main-loop fragments the
claims refer to: the sync-loss recovery check, the display-critical wait
loop, and the per-frame height computation with clamping.

Conventions: machine int arithmetic is modelled with Int; 16-bit timer
registers take values reduced mod 2 to the 16 (helper u16); time_t is
modelled in microseconds (time_us n = n, time_ms n = 1000 n); the system
clock runs at 72 MHz, so sysclk_us 1 = 72 clock cycles.
-/

namespace FFOSD

/-- HLINE_EOF from main.c: line counter value encoding EndOfFrame. -/
def HLINE_EOF : Int := -1

/-- HLINE_VBL from main.c: line counter value encoding VerticalBlank. -/
def HLINE_VBL : Int := 0

/-- HLINE_SOF from main.c: line counter value encoding StartOfFrame, i.e. ActiveLine 1. -/
def HLINE_SOF : Int := 1

/-- MAX_DISPLAY_HEIGHT from main.c: capacity of the display_dat buffer in lines. -/
def MAX_DISPLAY_HEIGHT : Nat := 52

/-- Time is modelled in microseconds. -/
def time_us (n : Int) : Int := n

/-- Milliseconds expressed in the microsecond time base. -/
def time_ms (n : Int) : Int := 1000 * n

/-- System-clock cycles per microsecond (72 MHz core clock). -/
def sysclk_us (n : Nat) : Nat := 72 * n

/-- Truncation of a signed value to a 16-bit unsigned register, as on a
store to an STM32 timer ARR or CCR register. -/
def u16 (x : Int) : Nat := (x % 65536).toNat

/-- TIM_SMCR value written by IRQ_csync for an active OSD line:
TIM_SMCR_MSM with trigger source 5 (filtered TI1) and slave mode 4
(reset mode); the exact bit pattern 0x80 plus 0x50 plus 0x4. -/
def TIM1_SMCR_SYNC : Nat := 212

/-- Configuration fields of struct config read by the sync core:
polarity (true = active high), h_off (horizontal offset units) and
v_off (vertical offset in lines). -/
structure Config where
  polarity : Bool
  h_off : Nat
  v_off : Nat

/-- The mutable state touched by the sync engine: the line counter hline,
the frame-completion counter, the remembered sync-pulse start time p, the
EXTI falling and rising trigger-enable bits for the sync pins, the TIM1
CC1P input-polarity bit, the TIM1 SMCR register, the two slave-timer
reload registers with TIM2 CCR1, and the display DMA source offset. -/
structure SyncState where
  hline : Int
  frame : Nat
  p : Int
  ftsr : Bool
  rtsr : Bool
  ccer_cc1p : Bool
  smcr : Nat
  tim2_arr : Nat
  tim3_arr : Nat
  tim2_ccr1 : Nat
  dma_cmar : Nat

/-- One transition event on the sync pin: the pin level read inside the
handler and the current time. -/
structure Edge where
  pin : Bool
  t : Int

/-- slave_arr_update from main.c: hstart = config.h_off * 20; TIM2 ARR is
hstart - 1, TIM3 ARR is hstart - 49, TIM2 CCR1 is hstart - sysclk_us 1;
each store truncates to the 16-bit register. -/
def slave_arr_update (cfg : Config) (s : SyncState) : SyncState :=
  { s with
    tim2_arr := u16 (20 * cfg.h_off - 1)
    tim3_arr := u16 (20 * cfg.h_off - 49)
    tim2_ccr1 := u16 (20 * cfg.h_off - sysclk_us 1) }

/-- set_polarity from main.c: active high arms the rising EXTI edge and
sets CC1P (capture on falling edge); active low arms the falling EXTI
edge and clears CC1P. -/
def set_polarity (cfg : Config) (s : SyncState) : SyncState :=
  if cfg.polarity then
    { s with ftsr := false, rtsr := true, ccer_cc1p := true }
  else
    { s with rtsr := false, ftsr := true, ccer_cc1p := false }

/-- IRQ_vsync from main.c: clears the pending bit, zeroes TIM1 SMCR and
forces the line counter to HLINE_VBL, with no other effect. -/
def IRQ_vsync (s : SyncState) : SyncState :=
  { s with smcr := 0, hline := HLINE_VBL }

/-- IRQ_csync from main.c, parameterised by the configuration and the
current display_height dh. While hline is at most 0 the handler arms both
EXTI edges, then: a level equal to the polarity starts a pulse (records
p); otherwise a width above 10 microseconds classifies vblank; otherwise
a short pulse seen in HLINE_VBL starts the frame (or, when dh = 0, jumps
to the end-of-frame path). While hline is positive the handler increments
it and compares against v_off and v_off + dh exactly as the C does. -/
def IRQ_csync (cfg : Config) (dh : Nat) (e : Edge) (s : SyncState) : SyncState :=
  if s.hline ≤ 0 then
    if e.pin = cfg.polarity then
      { s with ftsr := true, rtsr := true, p := e.t }
    else if time_us 10 < e.t - s.p then
      { s with ftsr := true, rtsr := true, hline := HLINE_VBL }
    else if s.hline = HLINE_VBL then
      if dh = 0 then
        { s with ftsr := true, rtsr := true,
                 smcr := 0, hline := HLINE_EOF, frame := s.frame + 1 }
      else
        set_polarity cfg
          (slave_arr_update cfg
            { s with ftsr := true, rtsr := true, hline := HLINE_SOF })
    else
      { s with ftsr := true, rtsr := true }
  else
    if s.hline + 1 < (cfg.v_off : Int) then
      { s with hline := s.hline + 1 }
    else if (cfg.v_off : Int) + (dh : Int) ≤ s.hline + 1 then
      { s with smcr := 0, hline := HLINE_EOF, frame := s.frame + 1 }
    else if s.hline + 1 = (cfg.v_off : Int) then
      { s with hline := s.hline + 1, smcr := TIM1_SMCR_SYNC, dma_cmar := 0 }
    else
      { s with hline := s.hline + 1, smcr := TIM1_SMCR_SYNC }

/-- Deliver a list of sync-pin events to IRQ_csync in order. -/
def run (cfg : Config) (dh : Nat) (es : List Edge) (s : SyncState) : SyncState :=
  es.foldl (fun s e => IRQ_csync cfg dh e s) s

/-- The main-loop state read and written by the sync-loss check:
the reference time of the last completed frame, the lost_sync flag, and
the shared hline and TIM1 SMCR it forces on recovery. -/
structure MainState where
  frame_time : Int
  lost_sync : Bool
  hline : Int
  smcr : Nat

/-- The sync-loss check of the main loop in main.c: when more than 100 ms
have passed since frame_time, set lost_sync, restamp frame_time to now,
zero TIM1 SMCR and force hline to HLINE_EOF (done under a global
interrupt mask in the C, modelled here as one atomic update). -/
def sync_loss_check (now : Int) (st : MainState) : MainState :=
  if time_ms 100 < now - st.frame_time then
    { st with lost_sync := true, frame_time := now,
              smcr := 0, hline := HLINE_EOF }
  else st

/-- The display-critical wait loop at the top of the main loop: up to
five probes; each probe breaks out early when hline is below
v_off - 3 and otherwise spends one delay_ms 1. The result counts the
delay_ms 1 calls performed. -/
def osd_wait (v_off : Nat) (hline : Int) : Nat → Nat
  | 0 => 0
  | n + 1 =>
    if hline < (v_off : Int) - 3 then 0
    else 1 + osd_wait v_off hline n

/-- The height computation of the frame-ready path in main.c: start from
rows * 10 + 2, add 8 for every row whose bit is set in heights, then
clamp with min to MAX_DISPLAY_HEIGHT. -/
def frame_height (rows : Nat) (heights : Nat) : Nat :=
  min
    ((List.range rows).foldl
      (fun h i => if heights.testBit i then h + 8 else h)
      (rows * 10 + 2))
    MAX_DISPLAY_HEIGHT

/-- The commit of the computed height to display_height: the computed
height when the display is on, else 0. -/
def display_height_next (isOn : Bool) (rows : Nat) (heights : Nat) : Nat :=
  if isOn then frame_height rows heights else 0

/-- Configuration of the end-to-end scenario: active-low polarity,
h_off = 2, v_off = 3. -/
def scenarioCfg : Config := { polarity := false, h_off := 2, v_off := 3 }

/-- Quiescent boot-like state in EndOfFrame with the frame counter at 0. -/
def s0 : SyncState :=
  { hline := HLINE_EOF, frame := 0, p := 0, ftsr := true, rtsr := false,
    ccer_cc1p := false, smcr := 0, tim2_arr := 39, tim3_arr := 65527,
    tim2_ccr1 := 65504, dma_cmar := 0 }

/-- Event stream of the end-to-end scenario: a 15 microsecond low pulse
(fall at t = 100, rise at t = 115), a 4 microsecond low pulse (fall at
t = 164, rise at t = 168), then 12 further line-sync edges. -/
def scenarioEvents : List Edge :=
  [⟨false, 100⟩, ⟨true, 115⟩, ⟨false, 164⟩, ⟨true, 168⟩] ++
    (List.range 12).map (fun i => ⟨false, 300 + 64 * (i : Int)⟩)

/-- A state sitting exactly at the StartOfFrame transition: hline is
HLINE_SOF just after the qualifying short pulse. -/
def sSOF : SyncState :=
  { hline := HLINE_SOF, frame := 0, p := 164, ftsr := true, rtsr := false,
    ccer_cc1p := false, smcr := 0, tim2_arr := 39, tim3_arr := 65527,
    tim2_ccr1 := 65504, dma_cmar := 0 }

/-- Configuration with v_off = 1, used for concrete instances. -/
def cfg1 : Config := { polarity := false, h_off := 2, v_off := 1 }

/-- The trailing edge of the 4 microsecond short pulse of the scenario. -/
def eShort : Edge := ⟨true, 168⟩

/-- A VerticalBlank state with the pulse-start time of the short pulse. -/
def sVBL : SyncState := { s0 with hline := HLINE_VBL, p := 164 }

/-- Ten line-sync edges. -/
def es10 : List Edge := List.replicate 10 ⟨false, 0⟩

/-- Fifty-two line-sync edges. -/
def es52 : List Edge := List.replicate 52 ⟨false, 0⟩

/-- Three pulse-end edges more than 10 microseconds after the recorded
pulse start of s0 (whose p is 0), on the non-polarity level. -/
def esLong : List Edge := [⟨true, 500⟩, ⟨true, 600⟩, ⟨true, 700⟩]

/-- The first four scenario events: the long pulse and the short pulse. -/
def esSOFseq : List Edge := scenarioEvents.take 4

theorem run_nil (cfg : Config) (dh : Nat) (s : SyncState) :
    run cfg dh [] s = s := rfl

theorem run_cons (cfg : Config) (dh : Nat) (e : Edge) (es : List Edge) (s : SyncState) :
    run cfg dh (e :: es) s = run cfg dh es (IRQ_csync cfg dh e s) := rfl

theorem csync_step_active (cfg : Config) (dh : Nat) (e : Edge) (s : SyncState)
    (hpos : 0 < s.hline) (hlt : s.hline + 1 < (cfg.v_off : Int) + (dh : Int)) :
    (IRQ_csync cfg dh e s).hline = s.hline + 1 ∧
      (IRQ_csync cfg dh e s).frame = s.frame := by
  have h0 : ¬ s.hline ≤ 0 := by omega
  have h2 : ¬ ((cfg.v_off : Int) + (dh : Int) ≤ s.hline + 1) := by omega
  by_cases h1 : s.hline + 1 < (cfg.v_off : Int)
  · simp [IRQ_csync, h0, h1]
  · by_cases h3 : s.hline + 1 = (cfg.v_off : Int)
    · have hdh : ¬ dh = 0 := by
        intro hc
        rw [hc] at h2
        push_cast at h2
        omega
      simp [IRQ_csync, h0, h1, h2, h3, hdh]
    · simp [IRQ_csync, h0, h1, h2, h3]

theorem csync_step_eof (cfg : Config) (dh : Nat) (e : Edge) (s : SyncState)
    (hpos : 0 < s.hline)
    (hge : (cfg.v_off : Int) + (dh : Int) ≤ s.hline + 1) :
    (IRQ_csync cfg dh e s).hline = HLINE_EOF ∧
      (IRQ_csync cfg dh e s).frame = s.frame + 1 ∧
      (IRQ_csync cfg dh e s).smcr = 0 := by
  have h0 : ¬ s.hline ≤ 0 := by omega
  have h1 : ¬ (s.hline + 1 < (cfg.v_off : Int)) := by
    have := Int.natCast_nonneg dh
    omega
  simp [IRQ_csync, h0, h1, hge]

theorem run_active (cfg : Config) (dh : Nat) (es : List Edge) (s : SyncState)
    (hpos : 0 < s.hline)
    (hlt : s.hline + es.length < (cfg.v_off : Int) + (dh : Int)) :
    (run cfg dh es s).hline = s.hline + es.length ∧
      (run cfg dh es s).frame = s.frame := by
  induction es generalizing s with
  | nil => simp [run_nil]
  | cons e es ih =>
    rw [run_cons]
    simp only [List.length_cons] at hlt ⊢
    push_cast at hlt ⊢
    have hnn : (0 : Int) ≤ (es.length : Int) := Int.natCast_nonneg _
    obtain ⟨hh, hf⟩ := csync_step_active cfg dh e s hpos (by omega)
    obtain ⟨hh2, hf2⟩ := ih (IRQ_csync cfg dh e s) (by omega) (by rw [hh]; omega)
    refine ⟨?_, ?_⟩
    · rw [hh2, hh]; ring
    · rw [hf2, hf]

theorem run_to_eof (cfg : Config) (dh : Nat) (es : List Edge) (s : SyncState)
    (hpos : 0 < s.hline) (hne : es ≠ [])
    (heq : s.hline + es.length = (cfg.v_off : Int) + (dh : Int)) :
    (run cfg dh es s).hline = HLINE_EOF ∧
      (run cfg dh es s).frame = s.frame + 1 := by
  induction es generalizing s with
  | nil => exact absurd rfl hne
  | cons e es ih =>
    rw [run_cons]
    cases es with
    | nil =>
      simp only [List.length_cons, List.length_nil] at heq
      push_cast at heq
      obtain ⟨hh, hf, _⟩ := csync_step_eof cfg dh e s hpos (by omega)
      simp [run_nil, hh, hf]
    | cons e2 es2 =>
      simp only [List.length_cons] at heq
      push_cast at heq
      have hnn : (0 : Int) ≤ (es2.length : Int) := Int.natCast_nonneg _
      obtain ⟨hh, hf⟩ := csync_step_active cfg dh e s hpos (by omega)
      obtain ⟨hh2, hf2⟩ := ih (IRQ_csync cfg dh e s) (by omega) (by simp)
        (by rw [hh]; simp only [List.length_cons]; push_cast; omega)
      refine ⟨hh2, ?_⟩
      rw [hf2, hf]

theorem csync_step_nonpos (cfg : Config) (e : Edge) (s : SyncState)
    (h : s.hline ≤ 0) : (IRQ_csync cfg 0 e s).hline ≤ 0 := by
  simp only [IRQ_csync, if_pos h]
  by_cases h1 : e.pin = cfg.polarity
  · simpa [h1] using h
  · by_cases h2 : time_us 10 < e.t - s.p
    · simp [h1, h2, HLINE_VBL]
    · by_cases h3 : s.hline = HLINE_VBL
      · simp [h1, h2, h3, HLINE_EOF]
      · simpa [h1, h2, h3] using h

theorem csync_step_long (cfg : Config) (dh : Nat) (e : Edge) (s : SyncState)
    (h : s.hline ≤ 0) (hp : ¬ e.pin = cfg.polarity)
    (hw : time_us 10 < e.t - s.p) :
    IRQ_csync cfg dh e s =
      { s with ftsr := true, rtsr := true, hline := HLINE_VBL } := by
  simp [IRQ_csync, h, hp, hw]

theorem run_long (cfg : Config) (dh : Nat) (es : List Edge) (s : SyncState)
    (h : s.hline ≤ 0)
    (hes : ∀ e ∈ es, ¬ e.pin = cfg.polarity ∧ time_us 10 < e.t - s.p) :
    (run cfg dh es s).frame = s.frame ∧ (run cfg dh es s).p = s.p ∧
      (run cfg dh es s).hline ≤ 0 ∧
      (es ≠ [] → (run cfg dh es s).hline = HLINE_VBL) := by
  induction es generalizing s with
  | nil => simp [run_nil, h]
  | cons e es ih =>
    rw [run_cons]
    obtain ⟨hp, hw⟩ := hes e (List.mem_cons_self e es)
    rw [csync_step_long cfg dh e s h hp hw]
    have hres := ih { s with ftsr := true, rtsr := true, hline := HLINE_VBL }
      (by simp [HLINE_VBL])
      (by intro e2 he2; exact hes e2 (List.mem_cons_of_mem e he2))
    obtain ⟨hf, hpp, hle, hvbl⟩ := hres
    refine ⟨hf, hpp, hle, fun _ => ?_⟩
    cases es with
    | nil => simp [run_nil]
    | cons e2 es2 => exact hvbl (by simp)

theorem foldl_height_count (heights : Nat) (l : List Nat) (a : Nat) :
    l.foldl (fun h i => if heights.testBit i then h + 8 else h) a =
      a + 8 * l.countP (fun i => heights.testBit i) := by
  induction l generalizing a with
  | nil => simp
  | cons i l ih =>
    simp only [List.foldl_cons, List.countP_cons]
    by_cases hb : heights.testBit i
    · rw [ih]; simp [hb]; ring
    · rw [ih]; simp [hb]

theorem frame_height_eq (rows heights : Nat) :
    frame_height rows heights =
      min (rows * 10 + 2 +
            8 * ((List.range rows).countP (fun i => heights.testBit i)))
        MAX_DISPLAY_HEIGHT := by
  rw [frame_height, foldl_height_count]

/-- C1: end-to-end scenario with active-low polarity, h_off 2, v_off 3,
height 10. From EndOfFrame, the 15 microsecond low pulse enters
VerticalBlank, the 4 microsecond low pulse enters ActiveLine 1, and after
the 12 further sync edges the frame counter has incremented exactly once
(it is 0 after every proper prefix of the event stream and 1 at the end,
the increment landing on the 13th classified edge after vertical blank)
and the machine rests in EndOfFrame. -/
theorem C1_end_to_end :
    (run scenarioCfg 10 (scenarioEvents.take 2) s0).hline = HLINE_VBL ∧
      (run scenarioCfg 10 (scenarioEvents.take 4) s0).hline = HLINE_SOF ∧
      ((List.range 16).all
        (fun k => (run scenarioCfg 10 (scenarioEvents.take k) s0).frame == 0)) = true ∧
      (run scenarioCfg 10 scenarioEvents s0).frame = 1 ∧
      (run scenarioCfg 10 scenarioEvents s0).hline = HLINE_EOF := by
  decide

/-- C2 counterexample: with height 10 (within capacity) and v_off 3,
delivering exactly 10 sync edges after the StartOfFrame transition does
not reach EndOfFrame: the line counter is at 11 and the frame counter
has not incremented, refuting the claim that exactly H edges suffice. -/
theorem C2_counterexample :
    (0 < 10 ∧ 10 ≤ MAX_DISPLAY_HEIGHT ∧ sSOF.hline = HLINE_SOF ∧
        es10.length = 10) ∧
      (run scenarioCfg 10 es10 sSOF).hline = 11 ∧
      ¬ (run scenarioCfg 10 es10 sSOF).hline = HLINE_EOF ∧
      (run scenarioCfg 10 es10 sSOF).frame = sSOF.frame := by
  decide

/-- C2 amended: for every height dh with 0 < dh at most the capacity and
every v_off at least 1, exactly v_off + dh - 1 sync edges after the
StartOfFrame transition (entry to ActiveLine 1) reach EndOfFrame with the
frame counter incremented exactly once, while any shorter edge sequence
leaves the machine in ActiveLine (1 + its length) with the frame counter
unchanged. -/
theorem C2_cycle_length (cfg : Config) (dh : Nat) (s : SyncState)
    (es esShort : List Edge)
    (hv : 1 ≤ cfg.v_off) (hdh1 : 0 < dh) (hdh2 : dh ≤ MAX_DISPLAY_HEIGHT)
    (hs : s.hline = HLINE_SOF)
    (hlen : es.length = cfg.v_off + dh - 1)
    (hshort : esShort.length < cfg.v_off + dh - 1) :
    ((run cfg dh es s).hline = HLINE_EOF ∧
        (run cfg dh es s).frame = s.frame + 1) ∧
      ((run cfg dh esShort s).hline = 1 + esShort.length ∧
        (run cfg dh esShort s).frame = s.frame) := by
  rw [HLINE_SOF] at hs
  have hpos : 0 < s.hline := by omega
  have hne : es ≠ [] := by
    intro hc
    rw [hc] at hlen
    simp at hlen
    omega
  have heq : s.hline + es.length = (cfg.v_off : Int) + (dh : Int) := by
    rw [hs, hlen]
    omega
  have hlt : s.hline + esShort.length < (cfg.v_off : Int) + (dh : Int) := by
    rw [hs]
    omega
  obtain ⟨h1, h2⟩ := run_to_eof cfg dh es s hpos hne heq
  obtain ⟨h3, h4⟩ := run_active cfg dh esShort s hpos hlt
  exact ⟨⟨h1, h2⟩, ⟨by rw [h3, hs], h4⟩⟩

/-- C2 witness: v_off 1 and dh 1, one edge after StartOfFrame reaches
EndOfFrame with one frame increment, and the empty sequence stays at
ActiveLine 1 with the frame counter unchanged. -/
theorem C2_cycle_length_witness :
    ((run cfg1 1 [⟨false, 0⟩] sSOF).hline = HLINE_EOF ∧
        (run cfg1 1 [⟨false, 0⟩] sSOF).frame = sSOF.frame + 1) ∧
      ((run cfg1 1 [] sSOF).hline = 1 + ([] : List Edge).length ∧
        (run cfg1 1 [] sSOF).frame = sSOF.frame) :=
  C2_cycle_length cfg1 1 sSOF [⟨false, 0⟩] [] (by decide) (by decide)
    (by decide) (by decide) (by decide) (by decide)

/-- C3: with display_height 0, from any state whose line counter is at
most 0 (EndOfFrame or VerticalBlank), no sequence of sync-pin events ever
makes the line counter positive: no ActiveLine state is entered. -/
theorem C3_height_zero_no_active (cfg : Config) (es : List Edge) (s : SyncState)
    (h : s.hline ≤ 0) : (run cfg 0 es s).hline ≤ 0 := by
  induction es generalizing s with
  | nil => simpa [run_nil] using h
  | cons e es ih =>
    rw [run_cons]
    exact ih (IRQ_csync cfg 0 e s) (csync_step_nonpos cfg e s h)

/-- C3 witness: the vblank-plus-short-pulse sequence of the scenario,
with display_height 0, leaves the line counter at most 0. -/
theorem C3_height_zero_no_active_witness :
    (run scenarioCfg 0 esSOFseq s0).hline ≤ 0 :=
  C3_height_zero_no_active scenarioCfg esSOFseq s0 (by decide)

/-- C4: with display_height 0, a short pulse end (width at most 10
microseconds, pin level off the configured polarity) arriving in
VerticalBlank takes the end-of-frame path: line counter HLINE_EOF, TIM1
SMCR cleared, frame counter incremented by one. -/
theorem C4_height_zero_short_pulse (cfg : Config) (e : Edge) (s : SyncState)
    (hvbl : s.hline = HLINE_VBL) (hpin : ¬ e.pin = cfg.polarity)
    (hshort : e.t - s.p ≤ time_us 10) :
    (IRQ_csync cfg 0 e s).hline = HLINE_EOF ∧
      (IRQ_csync cfg 0 e s).smcr = 0 ∧
      (IRQ_csync cfg 0 e s).frame = s.frame + 1 := by
  rw [HLINE_VBL] at hvbl
  have h0 : s.hline ≤ 0 := by omega
  have hw : ¬ time_us 10 < e.t - s.p := by omega
  simp [IRQ_csync, h0, hpin, hw, hvbl, HLINE_VBL]

/-- C4 witness: the scenario short-pulse end in VerticalBlank with
display_height 0 yields EndOfFrame, SMCR 0 and one frame increment. -/
theorem C4_height_zero_short_pulse_witness :
    (IRQ_csync scenarioCfg 0 eShort sVBL).hline = HLINE_EOF ∧
      (IRQ_csync scenarioCfg 0 eShort sVBL).smcr = 0 ∧
      (IRQ_csync scenarioCfg 0 eShort sVBL).frame = sVBL.frame + 1 :=
  C4_height_zero_short_pulse scenarioCfg eShort sVBL (by decide) (by decide)
    (by decide)

/-- C5: from any state with line counter at most 0, a nonempty run of
long-pulse classifications (pin level off the configured polarity, width
above 10 microseconds) ends in VerticalBlank, never makes the line
counter positive, and never changes the frame counter. -/
theorem C5_long_pulse_idempotent (cfg : Config) (dh : Nat) (es : List Edge)
    (s : SyncState) (h : s.hline ≤ 0) (hne : es ≠ [])
    (hes : ∀ e ∈ es, ¬ e.pin = cfg.polarity ∧ time_us 10 < e.t - s.p) :
    (run cfg dh es s).hline = HLINE_VBL ∧
      (run cfg dh es s).hline ≤ 0 ∧
      (run cfg dh es s).frame = s.frame := by
  obtain ⟨hf, _, hle, hvbl⟩ := run_long cfg dh es s h hes
  exact ⟨hvbl hne, hle, hf⟩

/-- C5 witness: three repeated long-pulse classifications from the boot
EndOfFrame state end in VerticalBlank with the frame counter unchanged. -/
theorem C5_long_pulse_idempotent_witness :
    (run scenarioCfg 10 esLong s0).hline = HLINE_VBL ∧
      (run scenarioCfg 10 esLong s0).hline ≤ 0 ∧
      (run scenarioCfg 10 esLong s0).frame = s0.frame :=
  C5_long_pulse_idempotent scenarioCfg 10 esLong s0 (by decide)
    (by simp [esLong]) (by decide)

/-- C6: when more than 100 ms have elapsed since frame_time, the check
zeroes TIM1 SMCR, forces the line counter to EndOfFrame, sets lost_sync
and restamps frame_time to now; a second check within 100 ms of the
forced reset is a no-op, while a second check more than 100 ms later
forces the reset again. -/
theorem C6_sync_loss_recovery (st : MainState) (now now2 : Int)
    (h : time_ms 100 < now - st.frame_time) :
    ((sync_loss_check now st).smcr = 0 ∧
        (sync_loss_check now st).hline = HLINE_EOF ∧
        (sync_loss_check now st).frame_time = now ∧
        (sync_loss_check now st).lost_sync = true) ∧
      (now2 - now ≤ time_ms 100 →
        sync_loss_check now2 (sync_loss_check now st) = sync_loss_check now st) ∧
      (time_ms 100 < now2 - now →
        (sync_loss_check now2 (sync_loss_check now st)).hline = HLINE_EOF ∧
          (sync_loss_check now2 (sync_loss_check now st)).smcr = 0 ∧
          (sync_loss_check now2 (sync_loss_check now st)).frame_time = now2) := by
  have h1 : sync_loss_check now st =
      { st with lost_sync := true, frame_time := now,
                smcr := 0, hline := HLINE_EOF } := by
    rw [sync_loss_check, if_pos h]
  rw [h1]
  refine ⟨⟨rfl, rfl, rfl, rfl⟩, fun h2 => ?_, fun h3 => ?_⟩
  · rw [sync_loss_check, if_neg]
    simp only [time_ms] at h2 ⊢
    omega
  · rw [sync_loss_check, if_pos]
    · exact ⟨rfl, rfl, rfl⟩
    · simp only [time_ms] at h3 ⊢
      omega

/-- C6 witness: frame_time 0, first check at 150 ms, second at 200 ms
(no-op, within the 100 ms cadence). -/
theorem C6_sync_loss_recovery_witness :
    ((sync_loss_check 150000 ⟨0, false, 5, 212⟩).smcr = 0 ∧
        (sync_loss_check 150000 ⟨0, false, 5, 212⟩).hline = HLINE_EOF ∧
        (sync_loss_check 150000 ⟨0, false, 5, 212⟩).frame_time = 150000 ∧
        (sync_loss_check 150000 ⟨0, false, 5, 212⟩).lost_sync = true) ∧
      ((200000 : Int) - 150000 ≤ time_ms 100 →
        sync_loss_check 200000 (sync_loss_check 150000 ⟨0, false, 5, 212⟩) =
          sync_loss_check 150000 ⟨0, false, 5, 212⟩) ∧
      (time_ms 100 < (200000 : Int) - 150000 →
        (sync_loss_check 200000 (sync_loss_check 150000 ⟨0, false, 5, 212⟩)).hline = HLINE_EOF ∧
          (sync_loss_check 200000 (sync_loss_check 150000 ⟨0, false, 5, 212⟩)).smcr = 0 ∧
          (sync_loss_check 200000 (sync_loss_check 150000 ⟨0, false, 5, 212⟩)).frame_time = 200000) :=
  C6_sync_loss_recovery ⟨0, false, 5, 212⟩ 150000 200000 (by decide)

/-- C7: the next-frame height is rows * 10 + 2 plus 8 per double-height
row among the first rows, clamped with min to MAX_DISPLAY_HEIGHT; when
the raw request exceeds the capacity the committed display_height is 52,
strictly below the request, and the frame cycle (edges from StartOfFrame
to EndOfFrame) is governed by the clamped value. -/
theorem C7_height_clamped (cfg : Config) (rows heights : Nat) (s : SyncState)
    (es : List Edge)
    (hraw : MAX_DISPLAY_HEIGHT <
      rows * 10 + 2 + 8 * ((List.range rows).countP (fun i => heights.testBit i)))
    (hv : 1 ≤ cfg.v_off) (hs : s.hline = HLINE_SOF)
    (hlen : es.length = cfg.v_off + frame_height rows heights - 1) :
    frame_height rows heights =
        min (rows * 10 + 2 +
              8 * ((List.range rows).countP (fun i => heights.testBit i)))
          MAX_DISPLAY_HEIGHT ∧
      frame_height rows heights = MAX_DISPLAY_HEIGHT ∧
      frame_height rows heights <
        rows * 10 + 2 + 8 * ((List.range rows).countP (fun i => heights.testBit i)) ∧
      display_height_next true rows heights = MAX_DISPLAY_HEIGHT ∧
      (run cfg (frame_height rows heights) es s).hline = HLINE_EOF ∧
      (run cfg (frame_height rows heights) es s).frame = s.frame + 1 := by
  have he := frame_height_eq rows heights
  have h52 : frame_height rows heights = MAX_DISPLAY_HEIGHT := by
    rw [he]
    exact Nat.min_eq_right (le_of_lt hraw)
  have hmaxpos : 0 < MAX_DISPLAY_HEIGHT := by decide
  rw [HLINE_SOF] at hs
  have hpos : 0 < s.hline := by omega
  have hne : es ≠ [] := by
    intro hc
    rw [hc] at hlen
    simp at hlen
    omega
  have heq : s.hline + es.length =
      (cfg.v_off : Int) + (frame_height rows heights : Int) := by
    rw [hs, hlen, h52]
    omega
  obtain ⟨h5, h6⟩ := run_to_eof cfg (frame_height rows heights) es s hpos hne heq
  exact ⟨he, h52, by omega, by simp [display_height_next, h52], h5, h6⟩

/-- C7 witness: 11 rows, no double-height rows, raw request 112 clamped
to 52; with v_off 1 the cycle completes in 52 edges after StartOfFrame. -/
theorem C7_height_clamped_witness :
    frame_height 11 0 =
        min (11 * 10 + 2 +
              8 * ((List.range 11).countP (fun i => Nat.testBit 0 i)))
          MAX_DISPLAY_HEIGHT ∧
      frame_height 11 0 = MAX_DISPLAY_HEIGHT ∧
      frame_height 11 0 <
        11 * 10 + 2 + 8 * ((List.range 11).countP (fun i => Nat.testBit 0 i)) ∧
      display_height_next true 11 0 = MAX_DISPLAY_HEIGHT ∧
      (run cfg1 (frame_height 11 0) es52 sSOF).hline = HLINE_EOF ∧
      (run cfg1 (frame_height 11 0) es52 sSOF).frame = sSOF.frame + 1 :=
  C7_height_clamped cfg1 11 0 sSOF es52 (by decide) (by decide) (by decide)
    (by decide)

/-- C8 counterexample: at h_off 1 the 16-bit wrap puts the TIM3 reload
(65507) far above the TIM2 reload (19), so the output-enable overflow
fires after, not 48 cycles before, the pixel-stream overflow. -/
theorem C8_counterexample :
    (slave_arr_update { polarity := false, h_off := 1, v_off := 3 } s0).tim2_arr = 19 ∧
      (slave_arr_update { polarity := false, h_off := 1, v_off := 3 } s0).tim3_arr = 65507 ∧
      ¬ ((slave_arr_update { polarity := false, h_off := 1, v_off := 3 } s0).tim3_arr + 48 =
          (slave_arr_update { polarity := false, h_off := 1, v_off := 3 } s0).tim2_arr) ∧
      (slave_arr_update { polarity := false, h_off := 1, v_off := 3 } s0).tim2_arr <
        (slave_arr_update { polarity := false, h_off := 1, v_off := 3 } s0).tim3_arr := by
  decide

/-- C8 amended: for h_off between 3 and 3276 (so that 20 h_off is at
least 49 and below the 16-bit range), the TIM2 reload is 20 h_off - 1,
the TIM3 reload is 20 h_off - 49, and the TIM3 (output-enable) overflow
precedes the TIM2 (pixel-stream) overflow by exactly 48 clock cycles. -/
theorem C8_slave_timer_order (cfg : Config) (s : SyncState)
    (h1 : 3 ≤ cfg.h_off) (h2 : cfg.h_off ≤ 3276) :
    (slave_arr_update cfg s).tim2_arr = 20 * cfg.h_off - 1 ∧
      (slave_arr_update cfg s).tim3_arr = 20 * cfg.h_off - 49 ∧
      (slave_arr_update cfg s).tim3_arr + 48 = (slave_arr_update cfg s).tim2_arr := by
  simp only [slave_arr_update, u16]
  have ha : (20 * (cfg.h_off : Int) - 49) % 65536 = 20 * (cfg.h_off : Int) - 49 :=
    Int.emod_eq_of_lt (by omega) (by omega)
  have hb : (20 * (cfg.h_off : Int) - 1) % 65536 = 20 * (cfg.h_off : Int) - 1 :=
    Int.emod_eq_of_lt (by omega) (by omega)
  rw [ha, hb]
  refine ⟨?_, ?_, ?_⟩ <;> omega

/-- C8 witness: at the stock h_off of 42 the reloads are 839 and 791 and
TIM3 leads TIM2 by 48 cycles. -/
theorem C8_slave_timer_order_witness :
    (slave_arr_update { polarity := false, h_off := 42, v_off := 3 } s0).tim2_arr =
        20 * 42 - 1 ∧
      (slave_arr_update { polarity := false, h_off := 42, v_off := 3 } s0).tim3_arr =
        20 * 42 - 49 ∧
      (slave_arr_update { polarity := false, h_off := 42, v_off := 3 } s0).tim3_arr + 48 =
        (slave_arr_update { polarity := false, h_off := 42, v_off := 3 } s0).tim2_arr :=
  C8_slave_timer_order { polarity := false, h_off := 42, v_off := 3 } s0
    (by decide) (by decide)

/-- C9: from every state, the vertical-sync handler sets the line counter
to VerticalBlank and clears TIM1 SMCR, touching neither the frame counter
nor the pulse timestamp (no width measurement is involved). -/
theorem C9_vsync_forces_vblank (s : SyncState) :
    (IRQ_vsync s).hline = HLINE_VBL ∧ (IRQ_vsync s).smcr = 0 ∧
      (IRQ_vsync s).frame = s.frame ∧ (IRQ_vsync s).p = s.p := by
  simp [IRQ_vsync]

/-- C10: the wait loop breaks early exactly when hline is below
v_off - 3; with v_off at most 2 the break condition is false even at the
quiescent EndOfFrame value -1, so all five 1 ms delays are performed. -/
theorem C10_wait_full_when_voff_small (v2 : Nat) (h2 : Int) (v_off : Nat)
    (hline : Int) (hv : v_off ≤ 2) (hq : hline = HLINE_EOF) :
    ¬ (hline < (v_off : Int) - 3) ∧
      osd_wait v_off hline 5 = 5 ∧
      (osd_wait v2 h2 5 < 5 → h2 < (v2 : Int) - 3) ∧
      (h2 < (v2 : Int) - 3 → osd_wait v2 h2 5 = 0) := by
  rw [HLINE_EOF] at hq
  have hnb : ¬ (hline < (v_off : Int) - 3) := by omega
  refine ⟨hnb, by simp [osd_wait, hnb], ?_, fun hb => by simp [osd_wait, hb]⟩
  intro hlt
  by_contra hb
  simp [osd_wait, hb] at hlt

/-- C10 witness: v_off 2 at hline -1 performs all five delays; v_off 10
at hline 0 breaks out with zero delays. -/
theorem C10_wait_full_when_voff_small_witness :
    ¬ ((-1 : Int) < ((2 : Nat) : Int) - 3) ∧
      osd_wait 2 (-1) 5 = 5 ∧
      (osd_wait 10 0 5 < 5 → (0 : Int) < ((10 : Nat) : Int) - 3) ∧
      ((0 : Int) < ((10 : Nat) : Int) - 3 → osd_wait 10 0 5 = 0) :=
  C10_wait_full_when_voff_small 10 0 2 (-1) (by decide) (by decide)

end FFOSD
